import Mathlib

/-!
Formal model of the per-frame lane-corridor estimation pipeline implemented in
scripts/ml_pipeline/lane_preprocessing.py.

Conventions of the embedding:

* Pixel coordinates are integers (ℤ); real-valued intermediate quantities are
  rationals (ℚ).  Every arithmetic operation the modeled code performs on
  Python floats (+, -, *, /, abs, comparisons against literals) is exact
  rational arithmetic on the inputs that occur here, so ℚ models it faithfully.
* Python int(x) truncates toward zero; it is modeled by pyInt below.
* OpenCV raster primitives (grayscale conversion, blur, Canny, HoughLinesP,
  fillPoly, bitwise and, line drawing, morphology, addWeighted) are external
  collaborators of the module.  They appear as fields of a Vision record and
  the pipeline is parameterized over them, mirroring the call structure of the
  source exactly.
* Numeric library routines whose concrete output the algorithms depend on
  (np.median, np.mean, np.polyfit with degree 1) are modeled concretely;
  np.polyfit with a configurable higher degree is an external parameter
  (polyfitN), since no statement below depends on its output values.
-/

/-- Python int(): truncation toward zero (floor for nonnegative arguments,
ceiling for negative ones). -/
def pyInt (q : ℚ) : ℤ := if 0 ≤ q then ⌊q⌋ else ⌈q⌉

/-- One Hough line segment, a row (x1, y1, x2, y2) of the array returned by
cv2.HoughLinesP (integer endpoint coordinates). -/
structure Seg where
  x1 : ℤ
  y1 : ℤ
  x2 : ℤ
  y2 : ℤ
deriving DecidableEq

/-- A fitted lane line: ordered endpoint pair ((x_bottom, y_bottom),
(x_top, y_top)), as returned by fit_lane_line. -/
abbrev LaneLine := (ℤ × ℤ) × (ℤ × ℤ)

/-- Configuration record LaneDetectionConfig from the source (dataclass with
defaults).  Fields that the source passes to OpenCV appear here with the same
names; all numeric thresholds are rationals. -/
structure LaneDetectionConfig where
  canny_low : ℚ
  canny_high : ℚ
  hough_threshold : ℚ
  hough_min_line_length : ℚ
  hough_max_line_gap : ℚ
  min_slope : ℚ
  max_slope : ℚ
  brightness_threshold : ℚ
  gamma_low : ℚ
  gamma_high : ℚ
  clahe_clip_limit : ℚ
  clahe_grid_size : ℤ × ℤ
  morph_kernel_size : ℤ
  temporal_alpha : ℚ
  min_line_points : ℕ
  curve_detection_window : ℕ
deriving DecidableEq

/-- Default values of the LaneDetectionConfig dataclass. -/
def LaneDetectionConfig.default : LaneDetectionConfig :=
  ⟨50, 150, 50, 50, 180, 3/10, 3, 60, 6/10, 12/10, 3, (8, 8), 5, 3/10, 2, 50⟩

/-- Detected vanishing point with confidence (dataclass VanishingPoint). -/
structure VanishingPoint where
  x : ℚ
  y : ℚ
  confidence : ℚ
deriving DecidableEq

/-- Information about a detected curve (dataclass CurveInfo). -/
structure CurveInfo where
  direction : String
  confidence : ℚ
  left_slope_trend : ℚ
  right_slope_trend : ℚ
deriving DecidableEq

/-- All unordered pairs of list elements, in the order produced by the nested
loops for i in range(n), for j in range(i+1, n). -/
def allPairs {α : Type} : List α → List (α × α)
  | [] => []
  | x :: xs => (xs.map fun y => (x, y)) ++ allPairs xs

/-- Insert a rational into a sorted list, keeping it sorted (helper for the
sort underlying np.median). -/
def insertLe (x : ℚ) : List ℚ → List ℚ
  | [] => [x]
  | y :: ys => if x ≤ y then x :: y :: ys else y :: insertLe x ys

/-- Insertion sort of a list of rationals. -/
def sortLe (l : List ℚ) : List ℚ := l.foldr insertLe []

/-- np.median of a list of values: sort, then take the middle element (odd
length) or the mean of the two middle elements (even length). -/
def npMedian (l : List ℚ) : ℚ :=
  let s := sortLe l
  let n := s.length
  if n % 2 = 1 then s.getD (n / 2) 0
  else (s.getD (n / 2 - 1) 0 + s.getD (n / 2) 0) / 2

/-- np.mean of a list of values. -/
def listMean (l : List ℚ) : ℚ := l.sum / (l.length : ℚ)

/-- Intersection of the infinite-line extensions of two segments via the 2x2
determinant solution, skipping near-parallel pairs (detect_vanishing_point,
inner loop).  Mirrors the source formulas for denom, px, py. -/
def intersectionOf (a b : Seg) : Option (ℚ × ℚ) :=
  let denom : ℚ := ((a.x1 - a.x2 : ℤ) : ℚ) * ((b.y1 - b.y2 : ℤ) : ℚ) -
    ((a.y1 - a.y2 : ℤ) : ℚ) * ((b.x1 - b.x2 : ℤ) : ℚ)
  if |denom| < 1/1000000 then none
  else
    let c1 : ℚ := ((a.x1 * a.y2 - a.y1 * a.x2 : ℤ) : ℚ)
    let c2 : ℚ := ((b.x1 * b.y2 - b.y1 * b.x2 : ℤ) : ℚ)
    let px := (c1 * ((b.x1 - b.x2 : ℤ) : ℚ) - ((a.x1 - a.x2 : ℤ) : ℚ) * c2) / denom
    let py := (c1 * ((b.y1 - b.y2 : ℤ) : ℚ) - ((a.y1 - a.y2 : ℤ) : ℚ) * c2) / denom
    some (px, py)

/-- The list of accepted pairwise intersections of detect_vanishing_point:
near-parallel pairs (determinant magnitude below 1e-6) are skipped, and an
intersection is kept only when 0 <= px <= width and 0 <= py <= height * 0.7. -/
def acceptedIntersections (lines : List Seg) (height width : ℤ) : List (ℚ × ℚ) :=
  (allPairs lines).filterMap fun pr =>
    match intersectionOf pr.1 pr.2 with
    | none => none
    | some q =>
      if 0 ≤ q.1 ∧ q.1 ≤ (width : ℚ) ∧ 0 ≤ q.2 ∧ q.2 ≤ (height : ℚ) * (7/10)
      then some q else none

/-- detect_vanishing_point: requires at least 2 segments and at least 3
accepted intersections, else absent; the estimate is the component-wise
np.median of the accepted intersections, and the confidence is the fraction of
accepted intersections within 50px of the median (the source compares
np.sqrt(dx^2 + dy^2) < 50, which for nonnegative radicands is equivalent to
dx^2 + dy^2 < 2500), capped at 1. -/
def detect_vanishing_point (lines : List Seg) (height width : ℤ) :
    Option VanishingPoint :=
  if lines.length < 2 then none
  else
    let inters := acceptedIntersections lines height width
    if inters.length < 3 then none
    else
      let cx := npMedian (inters.map Prod.fst)
      let cy := npMedian (inters.map Prod.snd)
      let inliers :=
        (inters.filter fun p => (p.1 - cx) ^ 2 + (p.2 - cy) ^ 2 < 2500).length
      let confidence := min ((inliers : ℚ) / ((max inters.length 1 : ℕ) : ℚ)) 1
      some ⟨cx, cy, confidence⟩

/-- Slope of a segment as the source computes it: (y2 - y1) / (x2 - x1) in
float (here exact rational) arithmetic. -/
def slopeQ (s : Seg) : ℚ := ((s.y2 - s.y1 : ℤ) : ℚ) / ((s.x2 - s.x1 : ℤ) : ℚ)

/-- classify_lines: drop segments with |x2 - x1| < 1e-6 or slope magnitude
outside [min_slope, max_slope]; negative slope goes to the left list, the rest
to the right list, preserving input order. -/
def classify_lines (lines : List Seg) (config : LaneDetectionConfig) :
    List Seg × List Seg :=
  match lines with
  | [] => ([], [])
  | s :: rest =>
    let cl := classify_lines rest config
    if |((s.x2 - s.x1 : ℤ) : ℚ)| < 1/1000000 then cl
    else if |slopeQ s| < config.min_slope ∨ |slopeQ s| > config.max_slope then cl
    else if slopeQ s < 0 then (s :: cl.1, cl.2)
    else (cl.1, s :: cl.2)

/-- Slope and vertical midpoint of each segment with non-tiny horizontal
extent (compute_slope_trend, first loop of detect_curve_direction). -/
def slopesWithY (lines : List Seg) : List (ℚ × ℚ) :=
  lines.filterMap fun s =>
    if |((s.x2 - s.x1 : ℤ) : ℚ)| < 1/1000000 then none
    else some (slopeQ s, ((s.y1 + s.y2 : ℤ) : ℚ) / 2)

/-- Stable insertion by the second component (vertical midpoint), matching the
stable Python list.sort with key = midpoint. -/
def insertByY (x : ℚ × ℚ) : List (ℚ × ℚ) → List (ℚ × ℚ)
  | [] => [x]
  | y :: ys => if x.2 ≤ y.2 then x :: y :: ys else y :: insertByY x ys

/-- Stable sort of (slope, midpoint) pairs by midpoint. -/
def sortByY (l : List (ℚ × ℚ)) : List (ℚ × ℚ) := l.foldr insertByY []

/-- compute_slope_trend (nested helper of detect_curve_direction): mean slope
of the bottom half minus mean slope of the top half after sorting by vertical
midpoint; 0 when fewer than 2 segments or fewer than 2 usable slopes. -/
def compute_slope_trend (lines : List Seg) : ℚ :=
  if lines.length < 2 then 0
  else
    let swy := slopesWithY lines
    if swy.length < 2 then 0
    else
      let sorted := sortByY swy
      let top := (sorted.take (sorted.length / 2)).map Prod.fst
      let bottom := (sorted.drop (sorted.length / 2)).map Prod.fst
      if top = [] ∨ bottom = [] then 0
      else listMean bottom - listMean top

/-- detect_curve_direction: combined trend is the mean of the per-side trends;
above 0.1 the direction is "right", below -0.1 it is "left", otherwise
"straight", with the graded confidences of the source. -/
def detect_curve_direction (left_lines right_lines : List Seg)
    (height width : ℤ) : CurveInfo :=
  let left_trend := compute_slope_trend left_lines
  let right_trend := compute_slope_trend right_lines
  let combined_trend := (left_trend + right_trend) / 2
  if combined_trend > 1/10 then
    ⟨"right", min (|combined_trend| / (3/10)) 1, left_trend, right_trend⟩
  else if combined_trend < -(1/10) then
    ⟨"left", min (|combined_trend| / (3/10)) 1, left_trend, right_trend⟩
  else
    ⟨"straight", 1 - min (|combined_trend| / (1/10)) 1, left_trend, right_trend⟩

/-- Endpoint list of a segment list, in source order: fit_lane_line flattens
each segment (x1, y1, x2, y2) into the two points (x1, y1), (x2, y2). -/
def segPoints (lines : List Seg) : List (ℤ × ℤ) :=
  lines.foldr (fun s acc => (s.x1, s.y1) :: (s.x2, s.y2) :: acc) []

/-- Closed-form least-squares fit of x as a function of y, the exact value of
np.polyfit(ys, xs, 1): with the usual power sums, slope and intercept solve
the 2x2 normal equations.  When the system is singular (all ys equal — the
only rank-deficient case for a degree-1 Vandermonde matrix) np.polyfit does
not raise: its lstsq kernel zeroes the negligible singular value and returns a
finite minimum-norm solution; that case is modeled by the minimum-norm
least-squares solution.  No theorem below depends on the values returned in
the singular case. -/
def polyfit1 (points : List (ℤ × ℤ)) : ℚ × ℚ :=
  let n : ℚ := (points.length : ℚ)
  let sy : ℚ := (((points.map Prod.snd).sum : ℤ) : ℚ)
  let sx : ℚ := (((points.map Prod.fst).sum : ℤ) : ℚ)
  let syy : ℚ := (((points.map fun p => p.2 * p.2).sum : ℤ) : ℚ)
  let sxy : ℚ := (((points.map fun p => p.1 * p.2).sum : ℤ) : ℚ)
  let d := n * syy - sy * sy
  if d = 0 then
    let c := sy / n
    let xbar := sx / n
    (xbar * c / (c * c + 1), xbar / (c * c + 1))
  else
    ((n * sxy - sy * sx) / d, (syy * sx - sy * sxy) / d)

/-- np.polyval: evaluate a coefficient list (highest degree first) by Horner's
rule. -/
def npPolyval (co : List ℚ) (x : ℚ) : ℚ := co.foldl (fun acc c => acc * x + c) 0

/-- fit_lane_line.  The degree-1 branch is modeled concretely by polyfit1; the
higher-degree branch calls the external solver polyfitN (np.polyfit with the
given degree), whose output values no statement below depends on.  Both
branches place the bottom endpoint at y = height and the top endpoint at
y = int(height * y_top_ratio), exactly as the source. -/
def fit_lane_line (polyfitN : ℕ → List (ℤ × ℤ) → List ℚ) (lines : List Seg)
    (height : ℤ) (yTopFrac : ℚ) (use_polyfit : Bool) (poly_degree : ℕ) :
    Option LaneLine :=
  if lines = [] then none
  else
    let points := segPoints lines
    if points.length < 2 then none
    else
      let y_bottom : ℤ := height
      let y_top : ℤ := pyInt ((height : ℚ) * yTopFrac)
      if use_polyfit ∧ poly_degree + 1 ≤ points.length then
        let co := polyfitN poly_degree points
        some ((pyInt (npPolyval co (y_bottom : ℚ)), y_bottom),
              (pyInt (npPolyval co (y_top : ℚ)), y_top))
      else
        let mb := polyfit1 points
        some ((pyInt (mb.1 * (y_bottom : ℚ) + mb.2), y_bottom),
              (pyInt (mb.1 * (y_top : ℚ) + mb.2), y_top))

/-- Mutable per-stream state of the TemporalSmoother class, parameterized over
the mask image type. -/
structure TemporalSmoother (M : Type) where
  alpha : ℚ
  left_line : Option LaneLine
  right_line : Option LaneLine
  prev_mask : Option M
deriving DecidableEq

/-- TemporalSmoother.smooth_line: keep the previous line on a missing
observation, adopt a new observation when nothing is stored, otherwise blend
each endpoint coordinate as int(alpha * new + (1 - alpha) * previous). -/
def smooth_line (alpha : ℚ) (line prev_line : Option LaneLine) :
    Option LaneLine :=
  match line, prev_line with
  | none, p => p
  | some l, none => some l
  | some l, some p =>
    some ((pyInt (alpha * (l.1.1 : ℚ) + (1 - alpha) * (p.1.1 : ℚ)),
           pyInt (alpha * (l.1.2 : ℚ) + (1 - alpha) * (p.1.2 : ℚ))),
          (pyInt (alpha * (l.2.1 : ℚ) + (1 - alpha) * (p.2.1 : ℚ)),
           pyInt (alpha * (l.2.2 : ℚ) + (1 - alpha) * (p.2.2 : ℚ))))

/-- TemporalSmoother.update: smooth both sides against the stored lines, store
and return the results. -/
def TemporalSmoother.update {M : Type} (s : TemporalSmoother M)
    (left right : Option LaneLine) :
    (Option LaneLine × Option LaneLine) × TemporalSmoother M :=
  let L := smooth_line s.alpha left s.left_line
  let R := smooth_line s.alpha right s.right_line
  ((L, R), { s with left_line := L, right_line := R })

/-- TemporalSmoother.smooth_mask, with cv2.addWeighted passed in as the
external blend (arguments: first image, its weight, second image, its weight,
additive constant): missing input returns the stored mask; with no stored mask
the input is adopted; otherwise the blend is stored and returned. -/
def TemporalSmoother.smooth_mask {M : Type} (aw : M → ℚ → M → ℚ → ℚ → M)
    (s : TemporalSmoother M) (mask : Option M) :
    Option M × TemporalSmoother M :=
  match mask with
  | none => (s.prev_mask, s)
  | some m =>
    match s.prev_mask with
    | none => (some m, { s with prev_mask := some m })
    | some pm =>
      let blended := aw m s.alpha pm (1 - s.alpha) 0
      (some blended, { s with prev_mask := some blended })

/-- External vision primitives consumed by the pipeline (OpenCV boundary).
Each field models one primitive call shape used by the source:
fillPolyAndEdges composes np.zeros_like + cv2.fillPoly + cv2.bitwise_and as
used by region_of_interest_adaptive and the single-lane fallback;
claheGamma composes the CLAHE + LAB recombination + gamma lookup applied by
enhance_low_light below its brightness threshold; houghLinesP takes the edge
map and the threshold / min-length / max-gap parameters (rho = 1 and
theta = pi/180 are fixed constants in every call of the source). -/
structure Vision (F G E M : Type) where
  shape : F → ℤ × ℤ
  cvtColorGray : F → G
  meanGray : G → ℚ
  claheGamma : F → ℚ → ℤ × ℤ → ℚ → F
  gaussianBlur : G → G
  canny : G → ℚ → ℚ → E
  houghLinesP : E → ℚ → ℚ → ℚ → Option (List Seg)
  fillPolyAndEdges : E → List (ℤ × ℤ) → E
  zerosMask : ℤ → ℤ → M
  fillPolyMask : M → List (ℤ × ℤ) → M
  drawLine : M → ℤ × ℤ → ℤ × ℤ → ℤ → M
  morphClose : M → ℤ → M
  morphOpen : M → ℤ → M
  addWeighted : M → ℚ → M → ℚ → ℚ → M

/-- enhance_low_light: if the mean gray brightness is at least the threshold
the frame is returned unchanged with flag false; otherwise the CLAHE + gamma
enhancement external is applied and the flag is true. -/
def enhance_low_light {F G E M : Type} (V : Vision F G E M) (frame : F)
    (config : LaneDetectionConfig) : F × Bool :=
  if config.brightness_threshold ≤ V.meanGray (V.cvtColorGray frame) then
    (frame, false)
  else
    (V.claheGamma frame config.clahe_clip_limit config.clahe_grid_size
      config.gamma_low, true)

/-- apply_morphological_cleanup: close and/or open with the elliptical kernel
of the given size (kernel construction is folded into the externals). -/
def apply_morphological_cleanup {F G E M : Type} (V : Vision F G E M) (mask : M)
    (kernel_size : ℤ) (operation : String) : M :=
  let cleaned := mask
  let cleaned :=
    if operation = "close" ∨ operation = "both" then V.morphClose cleaned kernel_size
    else cleaned
  if operation = "open" ∨ operation = "both" then V.morphOpen cleaned kernel_size
  else cleaned

/-- Fixed trapezoid branch of region_of_interest_adaptive: base corners at 8%
and 92% of the width, apex at 46% and 54% at top_offset of the height, with
the smaller one-sided curve shift (3% of the width times the curve
confidence, only toward the curve direction). -/
def roiDefaultPolygon (height width : ℤ) (curve_info : Option CurveInfo)
    (top_offset : ℚ) : List (ℤ × ℤ) :=
  let left_adjust : ℚ :=
    match curve_info with
    | some ci => if ci.direction = "left" then -(width : ℚ) * (3/100) * ci.confidence else 0
    | none => 0
  let right_adjust : ℚ :=
    match curve_info with
    | some ci => if ci.direction = "right" then (width : ℚ) * (3/100) * ci.confidence else 0
    | none => 0
  [(pyInt ((width : ℚ) * (8/100) + left_adjust), height),
   (pyInt ((width : ℚ) * (46/100) + left_adjust), pyInt ((height : ℚ) * top_offset)),
   (pyInt ((width : ℚ) * (54/100) + right_adjust), pyInt ((height : ℚ) * top_offset)),
   (pyInt ((width : ℚ) * (92/100) + right_adjust), height)]

/-- Polygon of region_of_interest_adaptive: the vanishing-point-driven apex
polygon when a vanishing point with confidence above 0.3 is present (all four
x coordinates shifted by the curve adjustment), otherwise the fixed trapezoid
with the smaller one-sided curve shift. -/
def roiPolygon (height width : ℤ) (vp : Option VanishingPoint)
    (curve_info : Option CurveInfo) (top_offset bottom_offset : ℚ) :
    List (ℤ × ℤ) :=
  match vp with
  | some v =>
    if v.confidence > 3/10 then
      let top_width : ℚ := (width : ℚ) * (15/100)
      let curve_adjustment : ℚ :=
        match curve_info with
        | some ci =>
          if ci.direction = "left" then -(width : ℚ) * (5/100) * ci.confidence
          else if ci.direction = "right" then (width : ℚ) * (5/100) * ci.confidence
          else 0
        | none => 0
      [(pyInt ((width : ℚ) * bottom_offset + curve_adjustment), height),
       (pyInt (v.x - top_width / 2 + curve_adjustment), pyInt v.y),
       (pyInt (v.x + top_width / 2 + curve_adjustment), pyInt v.y),
       (pyInt ((width : ℚ) * (1 - bottom_offset) + curve_adjustment), height)]
    else
      roiDefaultPolygon height width curve_info top_offset
  | none => roiDefaultPolygon height width curve_info top_offset

/-- region_of_interest_adaptive: fill the ROI polygon on a zero mask and
intersect with the edge map (the raster part is the fillPolyAndEdges
external). -/
def region_of_interest_adaptive {F G E M : Type} (V : Vision F G E M)
    (edges : E) (height width : ℤ) (vp : Option VanishingPoint)
    (curve_info : Option CurveInfo) (top_offset bottom_offset : ℚ) : E :=
  V.fillPolyAndEdges edges (roiPolygon height width vp curve_info top_offset bottom_offset)

/-- Edge map computed by build_lane_mask_v2 before the first Hough call: the
(night_mode-independent) enhancement, grayscale, blur and Canny chain.  The
source's night_mode flag selects the identical enhancement call in both
branches; the if is kept to mirror it. -/
def v2Edges {F G E M : Type} (V : Vision F G E M) (frame : F)
    (config : LaneDetectionConfig) (night_mode : Bool) : E :=
  let processed :=
    if night_mode then (enhance_low_light V frame config).1
    else (enhance_low_light V frame config).1
  V.canny (V.gaussianBlur (V.cvtColorGray processed)) config.canny_low config.canny_high

/-- Full-frame segment detection of build_lane_mask_v2 (first cv2.HoughLinesP
call). -/
def v2FullFrameLines {F G E M : Type} (V : Vision F G E M) (frame : F)
    (config : LaneDetectionConfig) (night_mode : Bool) : Option (List Seg) :=
  V.houghLinesP (v2Edges V frame config night_mode) config.hough_threshold
    config.hough_min_line_length config.hough_max_line_gap

/-- Curve info computed by build_lane_mask_v2: present only when curve
detection is enabled and both classified sides are non-empty. -/
def v2CurveInfo (curve_detection : Bool) (config : LaneDetectionConfig)
    (lines : List Seg) (height width : ℤ) : Option CurveInfo :=
  if curve_detection ∧ (classify_lines lines config).1 ≠ [] ∧
      (classify_lines lines config).2 ≠ [] then
    some (detect_curve_direction (classify_lines lines config).1
      (classify_lines lines config).2 height width)
  else none

/-- Edge map masked to the adaptive ROI (build_lane_mask_v2, steps 4-6):
vanishing point from the full-frame segments, curve info from their
classification, then region_of_interest_adaptive with its default offsets. -/
def v2Masked {F G E M : Type} (V : Vision F G E M)
    (config : LaneDetectionConfig) (curve_detection : Bool) (height width : ℤ)
    (edges : E) (lines : List Seg) : E :=
  region_of_interest_adaptive V edges height width
    (detect_vanishing_point lines height width)
    (v2CurveInfo curve_detection config lines height width) (58/100) (8/100)

/-- Segment re-detection inside the ROI (second cv2.HoughLinesP call of
build_lane_mask_v2). -/
def v2RoiLines {F G E M : Type} (V : Vision F G E M)
    (config : LaneDetectionConfig) (curve_detection : Bool) (height width : ℤ)
    (edges : E) (lines : List Seg) : Option (List Seg) :=
  V.houghLinesP (v2Masked V config curve_detection height width edges lines)
    config.hough_threshold config.hough_min_line_length config.hough_max_line_gap

/-- The previous-mask fallback of build_lane_mask_v2: return the smoother's
stored mask when a smoother is attached and holds one, else absent; the
smoother is not modified. -/
def prevMaskResult {M : Type} (sm : Option (TemporalSmoother M)) :
    Option M × Option (TemporalSmoother M) :=
  match sm with
  | some s => (s.prev_mask, some s)
  | none => (none, none)

/-- Mask rendering and morphological cleanup of build_lane_mask_v2 (steps
11-12): polygon fill across the four endpoints when both sides are present and
fill mode is selected, otherwise thick (10px) lines for the present side(s);
then close-and-open cleanup. -/
def v2RenderMask {F G E M : Type} (V : Vision F G E M)
    (config : LaneDetectionConfig) (polygon_fill : Bool) (height width : ℤ)
    (left right : Option LaneLine) : M :=
  let base := V.zerosMask height width
  let mask :=
    match polygon_fill, left, right with
    | true, some L, some R => V.fillPolyMask base [L.1, L.2, R.2, R.1]
    | _, l, r =>
      let m1 := match l with
        | some L => V.drawLine base L.1 L.2 10
        | none => base
      match r with
      | some R => V.drawLine m1 R.1 R.2 10
      | none => m1
  apply_morphological_cleanup V mask config.morph_kernel_size "both"

/-- Final stage of build_lane_mask_v2 once at least one side was fitted
(steps 10-13): blend the fitted lines through the smoother when attached,
render and clean the mask, then blend the mask through the smoother. -/
def v2Render {F G E M : Type} (V : Vision F G E M)
    (config : LaneDetectionConfig) (sm : Option (TemporalSmoother M))
    (polygon_fill : Bool) (height width : ℤ) (left right : Option LaneLine) :
    Option M × Option (TemporalSmoother M) :=
  match sm with
  | none => (some (v2RenderMask V config polygon_fill height width left right), none)
  | some s =>
    let u := s.update left right
    let cleaned := v2RenderMask V config polygon_fill height width u.1.1 u.1.2
    let r := u.2.smooth_mask V.addWeighted (some cleaned)
    (r.1, some r.2)

/-- Stage of build_lane_mask_v2 after ROI re-detection succeeded: re-classify,
fit both sides, fall back to the stored mask when both fits are absent, else
render. -/
def v2AfterRoi {F G E M : Type} (V : Vision F G E M)
    (config : LaneDetectionConfig) (sm : Option (TemporalSmoother M))
    (polygon_fill use_polyfit : Bool) (height width : ℤ)
    (polyfitN : ℕ → List (ℤ × ℤ) → List ℚ) (lines_in_roi : List Seg) :
    Option M × Option (TemporalSmoother M) :=
  let left := fit_lane_line polyfitN (classify_lines lines_in_roi config).1
    height (6/10) use_polyfit 2
  let right := fit_lane_line polyfitN (classify_lines lines_in_roi config).2
    height (6/10) use_polyfit 2
  if left = none ∧ right = none then prevMaskResult sm
  else v2Render V config sm polygon_fill height width left right

/-- Stage of build_lane_mask_v2 after full-frame detection succeeded: build the
adaptive ROI, re-detect segments inside it, fall back to the stored mask when
none are found, else continue with v2AfterRoi. -/
def v2AfterLines {F G E M : Type} (V : Vision F G E M)
    (config : LaneDetectionConfig) (sm : Option (TemporalSmoother M))
    (curve_detection polygon_fill use_polyfit : Bool) (height width : ℤ)
    (polyfitN : ℕ → List (ℤ × ℤ) → List ℚ) (edges : E) (lines : List Seg) :
    Option M × Option (TemporalSmoother M) :=
  match v2RoiLines V config curve_detection height width edges lines with
  | none => prevMaskResult sm
  | some lines_in_roi =>
    v2AfterRoi V config sm polygon_fill use_polyfit height width polyfitN lines_in_roi

/-- build_lane_mask_v2, the pipeline entry point.  Returns the produced mask
(absent when no lanes were detected) together with the smoother state after
the call (unchanged when no smoother is attached).  When full-frame segment
detection finds nothing the function returns absent immediately, before any
use of the smoother. -/
def build_lane_mask_v2 {F G E M : Type} (V : Vision F G E M) (frame : F)
    (config : LaneDetectionConfig) (sm : Option (TemporalSmoother M))
    (night_mode curve_detection polygon_fill use_polyfit : Bool)
    (polyfitN : ℕ → List (ℤ × ℤ) → List ℚ) :
    Option M × Option (TemporalSmoother M) :=
  match v2FullFrameLines V frame config night_mode with
  | none => (none, sm)
  | some lines =>
    v2AfterLines V config sm curve_detection polygon_fill use_polyfit
      (V.shape frame).1 (V.shape frame).2 polyfitN
      (v2Edges V frame config night_mode) lines

/-- Fixed default ROI polygon of build_lane_mask_single_lane (hardcoded
trapezoid at 8% / 46% / 54% / 92% of the width with apex at 58% of the
height). -/
def singleLaneDefaultPolygon (height width : ℤ) : List (ℤ × ℤ) :=
  [(pyInt ((width : ℚ) * (8/100)), height),
   (pyInt ((width : ℚ) * (46/100)), pyInt ((height : ℚ) * (58/100))),
   (pyInt ((width : ℚ) * (54/100)), pyInt ((height : ℚ) * (58/100))),
   (pyInt ((width : ℚ) * (92/100)), height)]

/-- Synthesis of the missing right line in the single-lane fallback: both
endpoints of the fitted left line are offset horizontally by the assumed lane
width. -/
def estimate_right_line (lane_width_pixels : ℤ) (left : LaneLine) : LaneLine :=
  ((left.1.1 + lane_width_pixels, left.1.2),
   (left.2.1 + lane_width_pixels, left.2.2))

/-- Synthesis of the missing left line in the single-lane fallback: both
endpoints of the fitted right line are offset horizontally by the assumed lane
width, in the negative direction. -/
def estimate_left_line (lane_width_pixels : ℤ) (right : LaneLine) : LaneLine :=
  ((right.1.1 - lane_width_pixels, right.1.2),
   (right.2.1 - lane_width_pixels, right.2.2))

/-- Segment detection of build_lane_mask_single_lane: edges of the raw frame
masked to the fixed default ROI, then cv2.HoughLinesP. -/
def singleLaneLines {F G E M : Type} (V : Vision F G E M) (frame : F)
    (config : LaneDetectionConfig) : Option (List Seg) :=
  V.houghLinesP
    (V.fillPolyAndEdges
      (V.canny (V.gaussianBlur (V.cvtColorGray frame)) config.canny_low config.canny_high)
      (singleLaneDefaultPolygon (V.shape frame).1 (V.shape frame).2))
    config.hough_threshold config.hough_min_line_length config.hough_max_line_gap

/-- build_lane_mask_single_lane: detect segments against the fixed default
ROI; when exactly one side is present, fit it and synthesize the other side at
the assumed lane width int(width * 0.35), fill the polygon between them and
clean it up (an empty mask is still returned when the fit fails); when zero or
two sides are present the fallback yields absent.  The source's is_left
parameter is declared but never consulted by the body and is modeled the same
way.  The function takes no smoother: it never reads or writes temporal
state. -/
def build_lane_mask_single_lane {F G E M : Type} (V : Vision F G E M)
    (frame : F) (config : LaneDetectionConfig)
    (polyfitN : ℕ → List (ℤ × ℤ) → List ℚ) (is_left : Option Bool) :
    Option M :=
  match singleLaneLines V frame config with
  | none => none
  | some lines =>
    let height := (V.shape frame).1
    let width := (V.shape frame).2
    let left_lines := (classify_lines lines config).1
    let right_lines := (classify_lines lines config).2
    let lane_width_pixels := pyInt ((width : ℚ) * (35/100))
    let base := V.zerosMask height width
    if left_lines ≠ [] ∧ right_lines = [] then
      let mask :=
        match fit_lane_line polyfitN left_lines height (6/10) false 2 with
        | none => base
        | some left =>
          let right_estimated := estimate_right_line lane_width_pixels left
          V.fillPolyMask base [left.1, left.2, right_estimated.2, right_estimated.1]
      some (apply_morphological_cleanup V mask config.morph_kernel_size "both")
    else if right_lines ≠ [] ∧ left_lines = [] then
      let mask :=
        match fit_lane_line polyfitN right_lines height (6/10) false 2 with
        | none => base
        | some right =>
          let left_estimated := estimate_left_line lane_width_pixels right
          V.fillPolyMask base [left_estimated.1, left_estimated.2, right.2, right.1]
      some (apply_morphological_cleanup V mask config.morph_kernel_size "both")
    else none

/-- process_frame_with_fallback: run the full pipeline; when it produces a
mask return it (with the pipeline's smoother state); when it returns absent,
fall back to build_lane_mask_single_lane, which is called with the frame and
config only — the smoother is neither passed to it nor updated around it. -/
def process_frame_with_fallback {F G E M : Type} (V : Vision F G E M)
    (frame : F) (config : LaneDetectionConfig)
    (sm : Option (TemporalSmoother M))
    (night_mode curve_detection polygon_fill : Bool)
    (polyfitN : ℕ → List (ℤ × ℤ) → List ℚ) :
    Option M × Option (TemporalSmoother M) :=
  let r := build_lane_mask_v2 V frame config sm night_mode curve_detection
    polygon_fill false polyfitN
  match r.1 with
  | some m => (some m, r.2)
  | none => (build_lane_mask_single_lane V frame config polyfitN none, r.2)

/-- A concrete instantiation of the external vision primitives, used to
evaluate the pipeline on closed inputs: frames, grayscales and edge maps are
trivial, masks are natural numbers, and segment detection finds nothing (the
behavior of cv2.HoughLinesP on an edge-free frame, e.g. an all-black input). -/
def noLinesVision : Vision Unit Unit Unit ℕ where
  shape := fun _ => (400, 640)
  cvtColorGray := fun _ => ()
  meanGray := fun _ => 100
  claheGamma := fun f _ _ _ => f
  gaussianBlur := fun g => g
  canny := fun _ _ _ => ()
  houghLinesP := fun _ _ _ _ => none
  fillPolyAndEdges := fun e _ => e
  zerosMask := fun _ _ => 0
  fillPolyMask := fun m _ => m + 1
  drawLine := fun m _ _ _ => m + 1
  morphClose := fun m _ => m
  morphOpen := fun m _ => m
  addWeighted := fun m _ p _ _ => m + p

/-- A smoother state holding a previous mask (memory from earlier frames),
used to evaluate the pipeline's behavior once memory exists. -/
def memorySmoother : TemporalSmoother ℕ := ⟨3/10, none, none, some 7⟩

/-- A concrete instantiation of the external higher-degree polynomial solver,
used only to evaluate calls whose control flow never consults it. -/
def polyfitExtZero : ℕ → List (ℤ × ℤ) → List ℚ := fun _ _ => []

/-- Three concrete segments whose pairwise infinite-line intersections all lie
at (100, 100): used to evaluate detect_vanishing_point on a present case. -/
def vpSegs : List Seg := [⟨0, 0, 100, 100⟩, ⟨0, 200, 200, 0⟩, ⟨0, 100, 200, 100⟩]

theorem pyInt_le_of_le {v : ℚ} {b : ℤ} (h : v ≤ (b : ℚ)) : pyInt v ≤ b := by
  unfold pyInt
  split
  · exact_mod_cast (Int.floor_le v).trans h
  · exact Int.ceil_le.mpr h

theorem le_pyInt_of_le {v : ℚ} {a : ℤ} (h : (a : ℚ) ≤ v) : a ≤ pyInt v := by
  unfold pyInt
  split
  · exact Int.le_floor.mpr h
  · exact_mod_cast h.trans (Int.le_ceil v)

/-- Core contraction fact behind the smoother: the truncated blend of an
observed coordinate o and a stored coordinate p lies between them, so its
distance to the observation never exceeds the stored distance. -/
theorem blend_natAbs_le (alpha : ℚ) (o p : ℤ) (h0 : 0 ≤ alpha) (h1 : alpha ≤ 1) :
    (pyInt (alpha * (o : ℚ) + (1 - alpha) * (p : ℚ)) - o).natAbs ≤
      (p - o).natAbs := by
  rcases le_total o p with hop | hop
  · have hc : (o : ℚ) ≤ (p : ℚ) := by exact_mod_cast hop
    have hlo : (o : ℚ) ≤ alpha * (o : ℚ) + (1 - alpha) * (p : ℚ) := by nlinarith
    have hhi : alpha * (o : ℚ) + (1 - alpha) * (p : ℚ) ≤ (p : ℚ) := by nlinarith
    have h2 := le_pyInt_of_le hlo
    have h3 := pyInt_le_of_le hhi
    omega
  · have hc : (p : ℚ) ≤ (o : ℚ) := by exact_mod_cast hop
    have hlo : (p : ℚ) ≤ alpha * (o : ℚ) + (1 - alpha) * (p : ℚ) := by nlinarith
    have hhi : alpha * (o : ℚ) + (1 - alpha) * (p : ℚ) ≤ (o : ℚ) := by nlinarith
    have h2 := le_pyInt_of_le hlo
    have h3 := pyInt_le_of_le hhi
    omega

theorem mem_insertLe {z x : ℚ} {l : List ℚ} (h : z ∈ insertLe x l) :
    z = x ∨ z ∈ l := by
  induction l with
  | nil =>
    simp only [insertLe, List.mem_singleton] at h
    exact Or.inl h
  | cons y ys ih =>
    by_cases hxy : x ≤ y
    · simp only [insertLe, if_pos hxy] at h
      rcases List.mem_cons.mp h with h1 | h2
      · exact Or.inl h1
      · exact Or.inr h2
    · simp only [insertLe, if_neg hxy] at h
      rcases List.mem_cons.mp h with h1 | h2
      · exact Or.inr (List.mem_cons.mpr (Or.inl h1))
      · rcases ih h2 with h3 | h4
        · exact Or.inl h3
        · exact Or.inr (List.mem_cons.mpr (Or.inr h4))

theorem mem_sortLe {z : ℚ} {l : List ℚ} (h : z ∈ sortLe l) : z ∈ l := by
  induction l with
  | nil => simpa [sortLe] using h
  | cons y ys ih =>
    have h2 : z ∈ insertLe y (sortLe ys) := h
    rcases mem_insertLe h2 with h3 | h4
    · simp [h3]
    · exact List.mem_cons.mpr (Or.inr (ih h4))

theorem length_insertLe (x : ℚ) (l : List ℚ) :
    (insertLe x l).length = l.length + 1 := by
  induction l with
  | nil => rfl
  | cons y ys ih => by_cases hxy : x ≤ y <;> simp [insertLe, hxy, ih]

theorem length_sortLe (l : List ℚ) : (sortLe l).length = l.length := by
  induction l with
  | nil => rfl
  | cons y ys ih =>
    show (insertLe y (sortLe ys)).length = ys.length + 1
    rw [length_insertLe, ih]

theorem getD_mem_of_lt : ∀ (l : List ℚ) (i : ℕ), i < l.length → l.getD i 0 ∈ l := by
  intro l
  induction l with
  | nil => intro i h; simp at h
  | cons a as ih =>
    intro i h
    cases i with
    | zero => simp
    | succ n =>
      have hmem := ih n (by simpa using h)
      simp only [List.getD_cons_succ]
      exact List.mem_cons.mpr (Or.inr hmem)

/-- np.median of a non-empty list of values that all lie in [a, b] lies in
[a, b] itself. -/
theorem npMedian_bounds {l : List ℚ} {a b : ℚ} (hne : l ≠ [])
    (hlo : ∀ x ∈ l, a ≤ x) (hhi : ∀ x ∈ l, x ≤ b) :
    a ≤ npMedian l ∧ npMedian l ≤ b := by
  have hlen : (sortLe l).length = l.length := length_sortLe l
  have hpos : 0 < l.length := List.length_pos.mpr hne
  simp only [npMedian]
  split_ifs with hpar
  · have hidx : (sortLe l).length / 2 < (sortLe l).length := by omega
    have hm := mem_sortLe (getD_mem_of_lt _ _ hidx)
    exact ⟨hlo _ hm, hhi _ hm⟩
  · have hid1 : (sortLe l).length / 2 - 1 < (sortLe l).length := by omega
    have hid2 : (sortLe l).length / 2 < (sortLe l).length := by omega
    have hm1 := mem_sortLe (getD_mem_of_lt _ _ hid1)
    have hm2 := mem_sortLe (getD_mem_of_lt _ _ hid2)
    constructor
    · have ha1 := hlo _ hm1
      have ha2 := hlo _ hm2
      linarith
    · have hb1 := hhi _ hm1
      have hb2 := hhi _ hm2
      linarith

/-- Every accepted intersection satisfies the acceptance box of the source. -/
theorem accepted_bounds {lines : List Seg} {height width : ℤ} {p : ℚ × ℚ}
    (hp : p ∈ acceptedIntersections lines height width) :
    0 ≤ p.1 ∧ p.1 ≤ (width : ℚ) ∧ 0 ≤ p.2 ∧ p.2 ≤ (height : ℚ) * (7/10) := by
  unfold acceptedIntersections at hp
  rcases List.mem_filterMap.mp hp with ⟨pr, _, heq⟩
  rcases hI : intersectionOf pr.1 pr.2 with _ | q
  · simp only [hI] at heq
    exact Option.noConfusion heq
  · simp only [hI] at heq
    split_ifs at heq with hc
    · injection heq with heq2
      subst heq2
      exact hc

/-- Claim C5: whenever detect_vanishing_point returns a present vanishing
point, its coordinates satisfy 0 <= x <= width and 0 <= y <= 0.7 * height,
and its confidence lies in [0, 1]. -/
theorem claim_C5_vp_invariants (lines : List Seg) (height width : ℤ)
    (vp : VanishingPoint)
    (hvp : detect_vanishing_point lines height width = some vp) :
    0 ≤ vp.x ∧ vp.x ≤ (width : ℚ) ∧ 0 ≤ vp.y ∧ vp.y ≤ (7/10) * (height : ℚ) ∧
    0 ≤ vp.confidence ∧ vp.confidence ≤ 1 := by
  simp only [detect_vanishing_point] at hvp
  split_ifs at hvp with h1 h2
  obtain rfl : vp = _ := (Option.some.inj hvp).symm
  have hlen3 : 3 ≤ (acceptedIntersections lines height width).length := by omega
  have hneI : acceptedIntersections lines height width ≠ [] := by
    intro hnil
    rw [hnil] at hlen3
    simp at hlen3
  have hxmem : ((acceptedIntersections lines height width).map Prod.fst) ≠ [] := by
    simpa using hneI
  have hymem : ((acceptedIntersections lines height width).map Prod.snd) ≠ [] := by
    simpa using hneI
  have hx := npMedian_bounds (a := 0) (b := (width : ℚ)) hxmem
    (by
      intro x hx
      rcases List.mem_map.mp hx with ⟨p, hp, rfl⟩
      exact (accepted_bounds hp).1)
    (by
      intro x hx
      rcases List.mem_map.mp hx with ⟨p, hp, rfl⟩
      exact (accepted_bounds hp).2.1)
  have hy := npMedian_bounds (a := 0) (b := (height : ℚ) * (7/10)) hymem
    (by
      intro y hy
      rcases List.mem_map.mp hy with ⟨p, hp, rfl⟩
      exact (accepted_bounds hp).2.2.1)
    (by
      intro y hy
      rcases List.mem_map.mp hy with ⟨p, hp, rfl⟩
      exact (accepted_bounds hp).2.2.2)
  refine ⟨hx.1, hx.2, hy.1, ?_, ?_, ?_⟩
  · have := hy.2
    linarith
  · exact le_min (div_nonneg (Nat.cast_nonneg _) (Nat.cast_nonneg _)) zero_le_one
  · exact min_le_right _ _

/-- Witness for C5: on three concrete segments all of whose pairwise
intersections are (100, 100), the detector returns that point with confidence
1 and the invariants hold. -/
theorem claim_C5_witness :
    0 ≤ (100 : ℚ) ∧ (100 : ℚ) ≤ ((640 : ℤ) : ℚ) ∧ 0 ≤ (100 : ℚ) ∧
    (100 : ℚ) ≤ (7/10) * ((400 : ℤ) : ℚ) ∧ 0 ≤ (1 : ℚ) ∧ (1 : ℚ) ≤ 1 :=
  claim_C5_vp_invariants vpSegs 400 640 ⟨100, 100, 1⟩ (by
    norm_num [detect_vanishing_point, acceptedIntersections, vpSegs, allPairs,
      intersectionOf, List.filterMap_cons, npMedian, sortLe, insertLe,
      List.filter_cons])

/-- Claim C6: detect_vanishing_point is absent exactly when fewer than 2
segments are supplied or fewer than 3 pairwise intersections are accepted
(acceptedIntersections skips pairs with determinant magnitude below 1e-6 and
keeps a point only when 0 <= x <= width and 0 <= y <= 0.7 * height). -/
theorem claim_C6_vp_absent_iff (lines : List Seg) (height width : ℤ) :
    detect_vanishing_point lines height width = none ↔
      lines.length < 2 ∨ (acceptedIntersections lines height width).length < 3 := by
  simp only [detect_vanishing_point]
  split_ifs with h1 h2
  · simp [h1]
  · simp [h1, h2]
  · simp [h1, h2]

/-- Claim C2 (amended): one smoothing step moves every stored endpoint
coordinate weakly toward the constant observation — the distance between the
stored coordinates and the observed coordinates never increases.  (It need not
strictly decrease, and the stored line need not ever coincide with the
observation: the int() truncation of the blend can stall at a persistent
nonzero offset; see the counterexample.) -/
theorem claim_C2_smoothing_contracts (alpha : ℚ) (obs prev : LaneLine)
    (h0 : 0 ≤ alpha) (h1 : alpha ≤ 1) :
    ∃ new, smooth_line alpha (some obs) (some prev) = some new ∧
      (new.1.1 - obs.1.1).natAbs ≤ (prev.1.1 - obs.1.1).natAbs ∧
      (new.1.2 - obs.1.2).natAbs ≤ (prev.1.2 - obs.1.2).natAbs ∧
      (new.2.1 - obs.2.1).natAbs ≤ (prev.2.1 - obs.2.1).natAbs ∧
      (new.2.2 - obs.2.2).natAbs ≤ (prev.2.2 - obs.2.2).natAbs := by
  refine ⟨_, rfl, ?_, ?_, ?_, ?_⟩ <;> exact blend_natAbs_le alpha _ _ h0 h1

/-- Witness for the amended C2 at the default alpha = 0.3: observed line
((1,0),(0,0)) against stored line ((0,0),(0,0)). -/
theorem claim_C2_witness :
    ∃ new, smooth_line (3/10) (some (((1 : ℤ), (0 : ℤ)), ((0 : ℤ), (0 : ℤ))))
        (some (((0 : ℤ), (0 : ℤ)), ((0 : ℤ), (0 : ℤ)))) = some new ∧
      (new.1.1 - 1).natAbs ≤ ((0 : ℤ) - 1).natAbs ∧
      (new.1.2 - 0).natAbs ≤ ((0 : ℤ) - 0).natAbs ∧
      (new.2.1 - 0).natAbs ≤ ((0 : ℤ) - 0).natAbs ∧
      (new.2.2 - 0).natAbs ≤ ((0 : ℤ) - 0).natAbs :=
  claim_C2_smoothing_contracts (3/10) ((1, 0), (0, 0)) ((0, 0), (0, 0))
    (by norm_num) (by norm_num)

/-- Counterexample to C2 as stated: with alpha = 0.3, stored line
((0,0),(0,0)) and constant differing observation ((1,0),(0,0)), the update
returns the stored line itself — the distance (1 pixel) does not strictly
decrease on this call, and repeated calls never make the values coincide. -/
theorem claim_C2_counterexample :
    smooth_line (3/10) (some (((1 : ℤ), (0 : ℤ)), ((0 : ℤ), (0 : ℤ))))
        (some (((0 : ℤ), (0 : ℤ)), ((0 : ℤ), (0 : ℤ)))) =
      some (((0 : ℤ), (0 : ℤ)), ((0 : ℤ), (0 : ℤ))) ∧
    ((((1 : ℤ), (0 : ℤ)), ((0 : ℤ), (0 : ℤ))) : LaneLine) ≠
      (((0 : ℤ), (0 : ℤ)), ((0 : ℤ), (0 : ℤ))) := by
  constructor
  · norm_num [smooth_line, pyInt]
  · decide

/-- Claim C3 (amended): whenever fit_lane_line returns a present lane line,
its bottom endpoint has y = height and its top endpoint has
y = int(height * y_top_ratio) — truncation toward zero, not rounding to
nearest (the original claim's round is refuted by the counterexample). -/
theorem claim_C3_fit_endpoint_rows (polyfitN : ℕ → List (ℤ × ℤ) → List ℚ)
    (lines : List Seg) (height : ℤ) (yTopFrac : ℚ) (use_polyfit : Bool)
    (poly_degree : ℕ) (L : LaneLine)
    (hfit : fit_lane_line polyfitN lines height yTopFrac use_polyfit
      poly_degree = some L) :
    L.1.2 = height ∧ L.2.2 = pyInt ((height : ℚ) * yTopFrac) := by
  simp only [fit_lane_line] at hfit
  split_ifs at hfit <;>
    first
      | exact Option.noConfusion hfit
      | · obtain rfl := (Option.some.inj hfit).symm
          exact ⟨rfl, rfl⟩

/-- Witness for the amended C3 on the spec scenario: the single segment
(100,400,140,240) at height 400 and the default top ratio 0.6 fits to
((100,400),(140,240)), whose endpoint rows satisfy the amended claim. -/
theorem claim_C3_witness :
    (400 : ℤ) = 400 ∧ (240 : ℤ) = pyInt ((400 : ℚ) * (6/10)) :=
  claim_C3_fit_endpoint_rows polyfitExtZero [⟨100, 400, 140, 240⟩] 400 (6/10)
    false 2 ((100, 400), (140, 240))
    (by norm_num [fit_lane_line, segPoints, polyfit1, pyInt])

/-- Counterexample to C3 as stated: at height 333 with the default top ratio
0.6, the fit is present but its top endpoint row is int(333 * 0.6) = 199,
while round(333 * 0.6) = 200. -/
theorem claim_C3_counterexample :
    fit_lane_line polyfitExtZero [⟨0, 0, 10, 333⟩] 333 (3/5) false 2 =
      some ((10, 333), (5, 199)) ∧
    (199 : ℤ) ≠ round ((333 : ℚ) * (3/5)) := by
  constructor
  · norm_num [fit_lane_line, segPoints, polyfit1, pyInt]
  · norm_num [round_eq]

theorem tiny_iff (d : ℤ) : |(d : ℚ)| < 1/1000000 ↔ d = 0 := by
  constructor
  · intro hd
    by_contra h0
    have h1 : (1 : ℤ) ≤ |d| := by
      rcases le_or_lt 0 d with h | h
      · rw [abs_of_nonneg h]; omega
      · rw [abs_of_neg h]; omega
    have h2 : (1 : ℚ) ≤ |(d : ℚ)| := by
      rw [← Int.cast_abs]
      exact_mod_cast h1
    linarith
  · rintro rfl
    norm_num

/-- Membership characterization for classify_lines: a segment is in the left
(resp. right) output exactly when it occurs in the input, has non-tiny
horizontal extent, slope magnitude inside the band, and negative (resp.
non-negative) slope. -/
theorem mem_classify (config : LaneDetectionConfig) (lines : List Seg) (s : Seg) :
    (s ∈ (classify_lines lines config).1 ↔
      s ∈ lines ∧ ¬|((s.x2 - s.x1 : ℤ) : ℚ)| < 1/1000000 ∧
      ¬(|slopeQ s| < config.min_slope ∨ |slopeQ s| > config.max_slope) ∧
      slopeQ s < 0) ∧
    (s ∈ (classify_lines lines config).2 ↔
      s ∈ lines ∧ ¬|((s.x2 - s.x1 : ℤ) : ℚ)| < 1/1000000 ∧
      ¬(|slopeQ s| < config.min_slope ∨ |slopeQ s| > config.max_slope) ∧
      ¬slopeQ s < 0) := by
  induction lines with
  | nil => simp [classify_lines]
  | cons t rest ih =>
    simp only [classify_lines]
    split_ifs with hA hB hC
    · constructor
      · rw [ih.1]
        constructor
        · rintro ⟨hs, h2, h3, h4⟩
          exact ⟨List.mem_cons_of_mem _ hs, h2, h3, h4⟩
        · rintro ⟨hs, h2, h3, h4⟩
          rcases List.mem_cons.mp hs with rfl | hs2
          · exact absurd hA h2
          · exact ⟨hs2, h2, h3, h4⟩
      · rw [ih.2]
        constructor
        · rintro ⟨hs, h2, h3, h4⟩
          exact ⟨List.mem_cons_of_mem _ hs, h2, h3, h4⟩
        · rintro ⟨hs, h2, h3, h4⟩
          rcases List.mem_cons.mp hs with rfl | hs2
          · exact absurd hA h2
          · exact ⟨hs2, h2, h3, h4⟩
    · constructor
      · rw [ih.1]
        constructor
        · rintro ⟨hs, h2, h3, h4⟩
          exact ⟨List.mem_cons_of_mem _ hs, h2, h3, h4⟩
        · rintro ⟨hs, h2, h3, h4⟩
          rcases List.mem_cons.mp hs with rfl | hs2
          · exact absurd hB h3
          · exact ⟨hs2, h2, h3, h4⟩
      · rw [ih.2]
        constructor
        · rintro ⟨hs, h2, h3, h4⟩
          exact ⟨List.mem_cons_of_mem _ hs, h2, h3, h4⟩
        · rintro ⟨hs, h2, h3, h4⟩
          rcases List.mem_cons.mp hs with rfl | hs2
          · exact absurd hB h3
          · exact ⟨hs2, h2, h3, h4⟩
    · constructor
      · constructor
        · intro hmem
          rcases List.mem_cons.mp hmem with rfl | hs2
          · exact ⟨List.mem_cons_self _ _, hA, hB, hC⟩
          · rcases (ih.1).mp hs2 with ⟨hs, h2, h3, h4⟩
            exact ⟨List.mem_cons_of_mem _ hs, h2, h3, h4⟩
        · rintro ⟨hs, h2, h3, h4⟩
          rcases List.mem_cons.mp hs with rfl | hs2
          · exact List.mem_cons_self _ _
          · exact List.mem_cons_of_mem _ ((ih.1).mpr ⟨hs2, h2, h3, h4⟩)
      · rw [ih.2]
        constructor
        · rintro ⟨hs, h2, h3, h4⟩
          exact ⟨List.mem_cons_of_mem _ hs, h2, h3, h4⟩
        · rintro ⟨hs, h2, h3, h4⟩
          rcases List.mem_cons.mp hs with rfl | hs2
          · exact absurd hC h4
          · exact ⟨hs2, h2, h3, h4⟩
    · constructor
      · rw [ih.1]
        constructor
        · rintro ⟨hs, h2, h3, h4⟩
          exact ⟨List.mem_cons_of_mem _ hs, h2, h3, h4⟩
        · rintro ⟨hs, h2, h3, h4⟩
          rcases List.mem_cons.mp hs with rfl | hs2
          · exact absurd h4 hC
          · exact ⟨hs2, h2, h3, h4⟩
      · constructor
        · intro hmem
          rcases List.mem_cons.mp hmem with rfl | hs2
          · exact ⟨List.mem_cons_self _ _, hA, hB, hC⟩
          · rcases (ih.2).mp hs2 with ⟨hs, h2, h3, h4⟩
            exact ⟨List.mem_cons_of_mem _ hs, h2, h3, h4⟩
        · rintro ⟨hs, h2, h3, h4⟩
          rcases List.mem_cons.mp hs with rfl | hs2
          · exact List.mem_cons_self _ _
          · exact List.mem_cons_of_mem _ ((ih.2).mpr ⟨hs2, h2, h3, h4⟩)

/-- Claim C4: classify_lines partitions exactly — an input segment with
nonzero horizontal extent and slope magnitude within [min_slope, max_slope]
lands in exactly one output list (left for negative slope, right for
non-negative slope), and a segment with zero horizontal extent or slope
magnitude outside the band lands in neither. -/
theorem claim_C4_classify_partition (config : LaneDetectionConfig)
    (lines : List Seg) (s : Seg) (hs : s ∈ lines) :
    (s.x2 - s.x1 ≠ 0 ∧ config.min_slope ≤ |slopeQ s| ∧
        |slopeQ s| ≤ config.max_slope →
      (slopeQ s < 0 → s ∈ (classify_lines lines config).1 ∧
        s ∉ (classify_lines lines config).2) ∧
      (0 ≤ slopeQ s → s ∈ (classify_lines lines config).2 ∧
        s ∉ (classify_lines lines config).1)) ∧
    (s.x2 - s.x1 = 0 ∨ |slopeQ s| < config.min_slope ∨
        config.max_slope < |slopeQ s| →
      s ∉ (classify_lines lines config).1 ∧
      s ∉ (classify_lines lines config).2) := by
  have hL := (mem_classify config lines s).1
  have hR := (mem_classify config lines s).2
  have htiny := tiny_iff (s.x2 - s.x1)
  constructor
  · rintro ⟨hx, hmin, hmax⟩
    have h2 : ¬|((s.x2 - s.x1 : ℤ) : ℚ)| < 1/1000000 := fun hq => hx (htiny.mp hq)
    have h3 : ¬(|slopeQ s| < config.min_slope ∨ |slopeQ s| > config.max_slope) := by
      push_neg
      exact ⟨hmin, hmax⟩
    constructor
    · intro hneg
      refine ⟨hL.mpr ⟨hs, h2, h3, hneg⟩, fun hmem => ?_⟩
      exact (hR.mp hmem).2.2.2 hneg
    · intro hpos
      have hnn : ¬slopeQ s < 0 := not_lt.mpr hpos
      refine ⟨hR.mpr ⟨hs, h2, h3, hnn⟩, fun hmem => ?_⟩
      exact hnn (hL.mp hmem).2.2.2
  · intro hrej
    constructor
    · intro hmem
      rcases hL.mp hmem with ⟨_, h2, h3, _⟩
      rcases hrej with hr1 | hr2 | hr3
      · exact h2 (htiny.mpr hr1)
      · exact h3 (Or.inl hr2)
      · exact h3 (Or.inr hr3)
    · intro hmem
      rcases hR.mp hmem with ⟨_, h2, h3, _⟩
      rcases hrej with hr1 | hr2 | hr3
      · exact h2 (htiny.mpr hr1)
      · exact h3 (Or.inl hr2)
      · exact h3 (Or.inr hr3)

/-- Witness for C4 on the spec scenario segment (100,400,140,300) (slope
-2.5, accepted) under the default config: it lands in the left list and not
in the right list. -/
theorem claim_C4_witness :
    (⟨100, 400, 140, 300⟩ : Seg) ∈
      (classify_lines [⟨100, 400, 140, 300⟩] LaneDetectionConfig.default).1 ∧
    (⟨100, 400, 140, 300⟩ : Seg) ∉
      (classify_lines [⟨100, 400, 140, 300⟩] LaneDetectionConfig.default).2 := by
  have habs : |slopeQ ⟨100, 400, 140, 300⟩| = 5/2 := by
    have hs : slopeQ ⟨100, 400, 140, 300⟩ = -(5/2) := by norm_num [slopeQ]
    rw [hs, abs_neg]
    exact abs_of_nonneg (by norm_num)
  have h := (claim_C4_classify_partition LaneDetectionConfig.default
      [⟨100, 400, 140, 300⟩] ⟨100, 400, 140, 300⟩ (List.mem_singleton.mpr rfl)).1
    (by refine ⟨by norm_num, ?_, ?_⟩ <;> rw [habs] <;>
      norm_num [LaneDetectionConfig.default])
  exact h.1 (by norm_num [slopeQ])

/-- Claim C7: detect_curve_direction classifies by the combined trend (the
mean of the two per-side slope trends) with thresholds at +-0.1 and the graded
confidence formulas of the source, and the confidence always lies in [0, 1]. -/
theorem claim_C7_curve_direction (left_lines right_lines : List Seg)
    (height width : ℤ) :
    (detect_curve_direction left_lines right_lines height width).direction =
      (if (compute_slope_trend left_lines + compute_slope_trend right_lines) / 2 > 1/10
       then "right"
       else if (compute_slope_trend left_lines + compute_slope_trend right_lines) / 2 < -(1/10)
       then "left" else "straight") ∧
    (detect_curve_direction left_lines right_lines height width).confidence =
      (if (compute_slope_trend left_lines + compute_slope_trend right_lines) / 2 > 1/10
       then min (|(compute_slope_trend left_lines + compute_slope_trend right_lines) / 2| / (3/10)) 1
       else if (compute_slope_trend left_lines + compute_slope_trend right_lines) / 2 < -(1/10)
       then min (|(compute_slope_trend left_lines + compute_slope_trend right_lines) / 2| / (3/10)) 1
       else 1 - min (|(compute_slope_trend left_lines + compute_slope_trend right_lines) / 2| / (1/10)) 1) ∧
    0 ≤ (detect_curve_direction left_lines right_lines height width).confidence ∧
    (detect_curve_direction left_lines right_lines height width).confidence ≤ 1 := by
  simp only [detect_curve_direction]
  split_ifs with h1 h2
  · refine ⟨rfl, rfl, ?_, ?_⟩
    · exact le_min (by positivity) zero_le_one
    · exact min_le_right _ _
  · refine ⟨rfl, rfl, ?_, ?_⟩
    · exact le_min (by positivity) zero_le_one
    · exact min_le_right _ _
  · refine ⟨rfl, rfl, ?_, ?_⟩
    · have hm := min_le_right
        (|(compute_slope_trend left_lines + compute_slope_trend right_lines) / 2| / (1/10)) 1
      linarith
    · have hm : 0 ≤ min
          (|(compute_slope_trend left_lines + compute_slope_trend right_lines) / 2| / (1/10)) 1 :=
        le_min (by positivity) zero_le_one
      linarith

/-- Claim C8: with frame width 640 the assumed lane width of the single-lane
fallback is int(0.35 * 640) = 224 pixels, and the right line synthesized from
the fitted left line ((100,400),(140,240)) is ((324,400),(364,240)). -/
theorem claim_C8_single_lane_offset :
    pyInt ((640 : ℚ) * (35/100)) = 224 ∧
    estimate_right_line (pyInt ((640 : ℚ) * (35/100))) ((100, 400), (140, 240)) =
      ((324, 400), (364, 240)) := by
  have h224 : pyInt ((640 : ℚ) * (35/100)) = 224 := by norm_num [pyInt]
  refine ⟨h224, ?_⟩
  rw [h224]
  decide

theorem segPoints_length (lines : List Seg) :
    (segPoints lines).length = 2 * lines.length := by
  induction lines with
  | nil => rfl
  | cons s rest ih =>
    show ((s.x1, s.y1) :: (s.x2, s.y2) :: segPoints rest).length =
      2 * (rest.length + 1)
    simp only [List.length_cons, ih]
    ring

/-- Claim C10: when use_polyfit is requested but fewer than poly_degree + 1
points are available, fit_lane_line silently takes the same degree-1 branch as
the default call and still returns a present line with the standard endpoint
rows. -/
theorem claim_C10_polyfit_degrade (polyfitN : ℕ → List (ℤ × ℤ) → List ℚ)
    (lines : List Seg) (height : ℤ) (yTopFrac : ℚ) (poly_degree : ℕ)
    (hne : lines ≠ []) (hlt : 2 * lines.length < poly_degree + 1) :
    fit_lane_line polyfitN lines height yTopFrac true poly_degree =
      fit_lane_line polyfitN lines height yTopFrac false poly_degree ∧
    ∃ xb xt, fit_lane_line polyfitN lines height yTopFrac false poly_degree =
      some ((xb, height), (xt, pyInt ((height : ℚ) * yTopFrac))) := by
  have hlen : (segPoints lines).length = 2 * lines.length := segPoints_length lines
  have hpos : 0 < lines.length := List.length_pos.mpr hne
  have h2 : ¬(segPoints lines).length < 2 := by omega
  have hcond : ¬(poly_degree + 1 ≤ (segPoints lines).length) := by omega
  have hcT : ¬((true : Bool) ∧ poly_degree + 1 ≤ (segPoints lines).length) :=
    fun hcontr => hcond hcontr.2
  have hcF : ¬((false : Bool) ∧ poly_degree + 1 ≤ (segPoints lines).length) :=
    fun hcontr => by simpa using hcontr.1
  constructor
  · simp only [fit_lane_line, if_neg hne, if_neg h2, if_neg hcT, if_neg hcF]
    split_ifs with hA
    · exact absurd hA.2 hcond
    · rfl
  · simp only [fit_lane_line, if_neg hne, if_neg h2, if_neg hcF]
    exact ⟨_, _, rfl⟩

/-- Witness for C10: a single segment contributes exactly 2 points, below the
3 needed for degree 2, so the polyfit call equals the default call and is
present. -/
theorem claim_C10_witness :
    fit_lane_line polyfitExtZero [⟨100, 400, 140, 240⟩] 400 (6/10) true 2 =
      fit_lane_line polyfitExtZero [⟨100, 400, 140, 240⟩] 400 (6/10) false 2 ∧
    ∃ xb xt, fit_lane_line polyfitExtZero [⟨100, 400, 140, 240⟩] 400 (6/10)
        false 2 = some ((xb, 400), (xt, pyInt ((400 : ℚ) * (6/10)))) :=
  claim_C10_polyfit_degrade polyfitExtZero [⟨100, 400, 140, 240⟩] 400 (6/10) 2
    (by simp) (by norm_num)

theorem prevMaskResult_snd {M : Type} (sm : Option (TemporalSmoother M)) :
    (prevMaskResult sm).2 = sm := by
  cases sm <;> rfl

theorem smooth_mask_some_isSome {M : Type} (aw : M → ℚ → M → ℚ → ℚ → M)
    (s : TemporalSmoother M) (m : M) :
    ((s.smooth_mask aw (some m)).1).isSome = true := by
  simp only [TemporalSmoother.smooth_mask]
  cases s.prev_mask <;> simp

theorem v2Render_fst_isSome {F G E M : Type} (V : Vision F G E M)
    (config : LaneDetectionConfig) (sm : Option (TemporalSmoother M))
    (polygon_fill : Bool) (height width : ℤ) (left right : Option LaneLine) :
    ((v2Render V config sm polygon_fill height width left right).1).isSome = true := by
  cases sm with
  | none => rfl
  | some s =>
    simp only [v2Render]
    exact smooth_mask_some_isSome V.addWeighted _ _

theorem v2AfterRoi_snd_of_none {F G E M : Type} (V : Vision F G E M)
    (config : LaneDetectionConfig) (sm : Option (TemporalSmoother M))
    (polygon_fill use_polyfit : Bool) (height width : ℤ)
    (polyfitN : ℕ → List (ℤ × ℤ) → List ℚ) (ls : List Seg)
    (h : (v2AfterRoi V config sm polygon_fill use_polyfit height width
      polyfitN ls).1 = none) :
    (v2AfterRoi V config sm polygon_fill use_polyfit height width
      polyfitN ls).2 = sm := by
  simp only [v2AfterRoi] at h ⊢
  split_ifs at h ⊢ with hc
  · exact prevMaskResult_snd sm
  · have hs := v2Render_fst_isSome V config sm polygon_fill height width
      (fit_lane_line polyfitN (classify_lines ls config).1 height (6/10) use_polyfit 2)
      (fit_lane_line polyfitN (classify_lines ls config).2 height (6/10) use_polyfit 2)
    rw [h] at hs
    exact Bool.noConfusion hs

theorem v2AfterLines_snd_of_none {F G E M : Type} (V : Vision F G E M)
    (config : LaneDetectionConfig) (sm : Option (TemporalSmoother M))
    (cd pf up : Bool) (height width : ℤ)
    (polyfitN : ℕ → List (ℤ × ℤ) → List ℚ) (edges : E) (lines : List Seg)
    (h : (v2AfterLines V config sm cd pf up height width polyfitN edges
      lines).1 = none) :
    (v2AfterLines V config sm cd pf up height width polyfitN edges lines).2 = sm := by
  simp only [v2AfterLines] at h ⊢
  rcases hr : v2RoiLines V config cd height width edges lines with _ | ls
  · exact prevMaskResult_snd sm
  · rw [hr] at h
    exact v2AfterRoi_snd_of_none V config sm pf up height width polyfitN ls h

theorem build_lane_mask_v2_snd_of_none {F G E M : Type} (V : Vision F G E M)
    (frame : F) (config : LaneDetectionConfig)
    (sm : Option (TemporalSmoother M)) (nm cd pf up : Bool)
    (polyfitN : ℕ → List (ℤ × ℤ) → List ℚ)
    (h : (build_lane_mask_v2 V frame config sm nm cd pf up polyfitN).1 = none) :
    (build_lane_mask_v2 V frame config sm nm cd pf up polyfitN).2 = sm := by
  simp only [build_lane_mask_v2] at h ⊢
  rcases hl : v2FullFrameLines V frame config nm with _ | lines
  · rfl
  · rw [hl] at h
    exact v2AfterLines_snd_of_none V config sm cd pf up _ _ polyfitN _ lines h

/-- Claim C1 (amended): when full-frame segment detection yields no segments
(e.g. an all-black frame with zero edges), build_lane_mask_v2 returns absent
and leaves the attached smoother untouched — regardless of whether the
smoother holds a previous mask.  The stored-previous-mask fallback of the
original claim applies only to the later ROI re-detection and fitting stages;
the counterexample shows the original claim fails once memory exists. -/
theorem claim_C1_no_segments_absent {F G E M : Type} (V : Vision F G E M)
    (frame : F) (config : LaneDetectionConfig)
    (sm : Option (TemporalSmoother M)) (nm cd pf up : Bool)
    (polyfitN : ℕ → List (ℤ × ℤ) → List ℚ)
    (h : v2FullFrameLines V frame config nm = none) :
    build_lane_mask_v2 V frame config sm nm cd pf up polyfitN = (none, sm) := by
  simp only [build_lane_mask_v2, h]

/-- Witness for the amended C1: with externals whose segment detection finds
nothing and a smoother that holds a previous mask, the pipeline returns absent
and the smoother is unchanged. -/
theorem claim_C1_witness :
    build_lane_mask_v2 noLinesVision () LaneDetectionConfig.default
      (some memorySmoother) false true true false polyfitExtZero =
      (none, some memorySmoother) :=
  claim_C1_no_segments_absent noLinesVision () LaneDetectionConfig.default
    (some memorySmoother) false true true false polyfitExtZero rfl

/-- Counterexample to C1 as stated: full-frame detection yields no segments
and the attached smoother holds a previous mask (memory exists), yet the
pipeline returns absent — not the stored previous mask. -/
theorem claim_C1_counterexample :
    (build_lane_mask_v2 noLinesVision () LaneDetectionConfig.default
        (some memorySmoother) false true true false polyfitExtZero).1 = none ∧
    memorySmoother.prev_mask = some 7 ∧
    (build_lane_mask_v2 noLinesVision () LaneDetectionConfig.default
        (some memorySmoother) false true true false polyfitExtZero).1 ≠
      memorySmoother.prev_mask := by
  refine ⟨rfl, rfl, fun hcontr => ?_⟩
  exact Option.noConfusion hcontr

/-- Claim C9: when the full pipeline yields absent, process_frame_with_fallback
returns exactly the single-lane estimator's output — a function of the frame
and config alone, with no temporal blending, since build_lane_mask_single_lane
takes no smoother — and the smoother state is unchanged by the call. -/
theorem claim_C9_fallback_no_smoother {F G E M : Type} (V : Vision F G E M)
    (frame : F) (config : LaneDetectionConfig)
    (sm : Option (TemporalSmoother M)) (nm cd pf : Bool)
    (polyfitN : ℕ → List (ℤ × ℤ) → List ℚ)
    (h : (build_lane_mask_v2 V frame config sm nm cd pf false polyfitN).1 = none) :
    process_frame_with_fallback V frame config sm nm cd pf polyfitN =
      (build_lane_mask_single_lane V frame config polyfitN none, sm) := by
  have h2 := build_lane_mask_v2_snd_of_none V frame config sm nm cd pf false
    polyfitN h
  simp only [process_frame_with_fallback, h, h2]

/-- Witness for C9: on a frame with no detectable segments the pipeline is
absent, and the fallback result is returned with the smoother unchanged. -/
theorem claim_C9_witness :
    process_frame_with_fallback noLinesVision () LaneDetectionConfig.default
      (some memorySmoother) false true true polyfitExtZero =
      (build_lane_mask_single_lane noLinesVision () LaneDetectionConfig.default
        polyfitExtZero none, some memorySmoother) :=
  claim_C9_fallback_no_smoother noLinesVision () LaneDetectionConfig.default
    (some memorySmoother) false true true polyfitExtZero rfl
